import Mathlib

/-
Verification of the UNHCR geodata aggregation pipeline (src/main.py).

The embedding models the pipeline over explicit data:
* a GeoJSON feature is a geometry (its coordinate list, coordinates as
  rationals) together with a property mapping (an insertion-ordered
  association list, mirroring a Python dict with string values);
* a fetched response is `Option FC`: `none` stands for the falsy empty
  dict the client returns after catching a transport error
  (requests.RequestException), `some c` for a successfully decoded
  GeoJSON feature collection;
* the remote ArcGIS feature service is outside the repository; its
  query evaluation is modelled from the spec (section 6) as a filter
  over a server-side record database;
* the shapely buffer operation is an external library function; the
  pipeline definitions are parameterized by an arbitrary buffer
  function `buf : Geom -> Rat -> Geom`, since every claim under study
  holds (or fails) uniformly in it.
-/

namespace Unhcr

/-- A coordinate pair (x, y) in the input coordinate reference. -/
abbrev Coord := ℚ × ℚ

/-- A geometry, represented by its list of coordinate pairs (a point is
a singleton list; a polygon lists its ring coordinates). -/
abbrev Geom := List Coord

/-- A Python dict of feature properties: insertion-ordered association
list from string keys to string values. -/
abbrev Props := List (String × String)

/-- Lookup of a key in a property dict (Python `props[k]` / `k in props`). -/
def dictGet? (k : String) : Props → Option String
  | [] => none
  | p :: rest => if p.1 = k then some p.2 else dictGet? k rest

/-- Python `k in props`. -/
def hasKey (k : String) (ps : Props) : Bool :=
  (dictGet? k ps).isSome

/-- Lookup with default (Python `props.get(k, d)`). -/
def dictGetD (ps : Props) (k d : String) : String :=
  (dictGet? k ps).getD d

/-- Removal of a key (the removal effect of Python `props.pop(k)`). -/
def dictErase (k : String) : Props → Props
  | [] => []
  | p :: rest => if p.1 = k then dictErase k rest else p :: dictErase k rest

/-- Python `props[k] = v`: update the entry in place when the key is
present (keeping its position), append it at the end otherwise. -/
def dictSet (k v : String) : Props → Props
  | [] => [(k, v)]
  | p :: rest => if p.1 = k then (k, v) :: rest else p :: dictSet k v rest

/-- A GeoJSON feature (the `type: Feature` wrapper is implicit). -/
structure Feature where
  geometry : Geom
  properties : Props
deriving DecidableEq, Repr

/-- A GeoJSON feature collection (the decoded non-empty response dict). -/
structure FC where
  features : List Feature
deriving DecidableEq, Repr

/-- Default feature used with `List.getD` indexing in theorem statements. -/
def noFeature : Feature := ⟨[], []⟩

/-- A record of the remote polygon layer wrl_prp_a_unhcr
(fields requested by src/main.py line 85: site_code, name). -/
structure PolyRecord where
  site_code : String
  name : String
  geometry : Geom
deriving DecidableEq, Repr

/-- A record of the remote point layer wrl_prp_p_unhcr_PoC
(fields requested by src/main.py line 65: pcode, gis_name). -/
structure PointRecord where
  iso3 : String
  pcode : String
  gis_name : String
  geometry : Geom
deriving DecidableEq, Repr

/-- Modelled from the spec: the remote feature service (spec section 6)
evaluates the polygon-layer where-predicate of src/main.py line 84
server-side: it keeps the records whose site_code starts with the
country code (LIKE prefix match) and returns them as GeoJSON features
carrying the requested fields. -/
def serverPolygons (db : List PolyRecord) (country_code : String) : List Feature :=
  (db.filter (fun r => List.isPrefixOf country_code.data r.site_code.data)).map
    (fun r => ⟨r.geometry, [("site_code", r.site_code), ("name", r.name)]⟩)

/-- Modelled from the spec: the remote feature service (spec section 6)
evaluates the point-layer where-predicate built at src/main.py
lines 60-61 server-side: it keeps the records whose iso3 attribute
equals the country code and whose pcode is NOT IN the excluded
site-code list. -/
def serverPoints (db : List PointRecord) (country_code : String)
    (site_codes : List String) : List Feature :=
  (db.filter (fun r => decide (r.iso3 = country_code ∧ r.pcode ∉ site_codes))).map
    (fun r => ⟨r.geometry, [("pcode", r.pcode), ("gis_name", r.gis_name)]⟩)

/-- query_polygons (src/main.py lines 82-105): on transport failure the
exception handler returns the falsy empty dict (`none`); on success the
response features each get their geometry buffered with
buffer_size_poly and the property feature_type set to Polygon. -/
def query_polygons (buf : Geom → ℚ → Geom) (transportOk : Bool)
    (db : List PolyRecord) (country_code : String) (buffer_size_poly : ℚ) :
    Option FC :=
  if transportOk then
    some ⟨(serverPolygons db country_code).map
      (fun feature =>
        ⟨buf feature.geometry buffer_size_poly,
         dictSet "feature_type" "Polygon" feature.properties⟩)⟩
  else none

/-- query_points (src/main.py lines 52-79): on transport failure the
exception handler returns the falsy empty dict (`none`); on success
each response feature gets the property feature_type set to Point. -/
def query_points (transportOk : Bool) (db : List PointRecord)
    (country_code : String) (site_codes : List String) : Option FC :=
  if transportOk then
    some ⟨(serverPoints db country_code site_codes).map
      (fun feature =>
        ⟨feature.geometry, dictSet "feature_type" "Point" feature.properties⟩)⟩
  else none

/-- extract_site_codes (src/main.py lines 40-48). The Python code reads
item["properties"]["site_code"] directly; the key is always present on
features produced by query_polygons, so the total model uses an empty
default. -/
def extract_site_codes (country_data : FC) : List String :=
  country_data.features.map (fun item => dictGetD item.properties "site_code" "")

/-- Python `data.get('features', [])` over a possibly-falsy fetch result
(src/main.py line 116). -/
def getFeaturesD : Option FC → List Feature
  | none => []
  | some data => data.features

/-- The loop body of gen_polygons (src/main.py lines 119-131): one
buffered feature appended per input feature, properties reused as-is. -/
def genLoop (buf : Geom → ℚ → Geom) (buffer_size : ℚ) :
    List Feature → List Feature → List Feature
  | [], acc => acc
  | feature :: rest, acc =>
      genLoop buf buffer_size rest
        (acc ++ [⟨buf feature.geometry buffer_size, feature.properties⟩])

/-- gen_polygons (src/main.py lines 108-139). -/
def gen_polygons (buf : Geom → ℚ → Geom) (data : Option FC)
    (buffer_size : ℚ) : FC :=
  ⟨genLoop buf buffer_size (getFeaturesD data) []⟩

/-- The n_points computation of src/main.py lines 162-167: zero when the
fetch result is falsy or has no features, the feature count otherwise. -/
def pointCount : Option FC → Nat
  | none => 0
  | some points_data => points_data.features.length

/-- process_country (src/main.py lines 141-184). Returns Python None
(`none`) exactly when query_polygons returned the falsy empty dict. -/
def process_country (buf : Geom → ℚ → Geom) (polyOk ptOk : Bool)
    (polyDb : List PolyRecord) (ptDb : List PointRecord)
    (country_code : String) (buffer_size_points buffer_size_poly : ℚ) :
    Option (FC × Nat × Nat) :=
  match query_polygons buf polyOk polyDb country_code buffer_size_poly with
  | none => none
  | some official_polygons =>
      let n_polygons := official_polygons.features.length
      let site_codes := extract_site_codes official_polygons
      let points_data := query_points ptOk ptDb country_code site_codes
      let n_points := pointCount points_data
      let generated_polygons := gen_polygons buf points_data buffer_size_points
      let country_polygons :=
        if generated_polygons.features.isEmpty then official_polygons.features
        else official_polygons.features ++ generated_polygons.features
      some (⟨country_polygons⟩, n_polygons, n_points)

/-- The call site at src/main.py line 309: the tuple assignment
`country_data, n_polygons, n_points = process_country(...)` raises a
TypeError when process_country returns None. -/
def load_country (buf : Geom → ℚ → Geom) (polyOk ptOk : Bool)
    (polyDb : List PolyRecord) (ptDb : List PointRecord)
    (country_code : String) (buffer_size_points buffer_size_poly : ℚ) :
    Except String (FC × Nat × Nat) :=
  match process_country buf polyOk ptOk polyDb ptDb country_code
      buffer_size_points buffer_size_poly with
  | some t => Except.ok t
  | none => Except.error "TypeError: cannot unpack non-iterable NoneType object"

/-- One step of the export rename loop (src/main.py lines 405-409):
when the source key is present, its value is popped and stored under
the destination key. -/
def renameStep (src dst : String) (ps : Props) : Props :=
  match dictGet? src ps with
  | some v => dictSet dst v (dictErase src ps)
  | none => ps

/-- The per-feature body of the export rename loop (src/main.py
lines 405-409): pcode becomes site_code, gis_name becomes name. -/
def normalizeProps (ps : Props) : Props :=
  renameStep "gis_name" "name" (renameStep "pcode" "site_code" ps)

/-- The export rename loop (src/main.py lines 404-409) applied to every
feature of a collection. -/
def normalizeColl (c : FC) : FC :=
  ⟨c.features.map (fun feature => ⟨feature.geometry, normalizeProps feature.properties⟩)⟩

/-- Minimum x over the coordinates of a geometry (shapely
geometry.bounds, src/main.py line 480); 0 for an empty geometry. -/
def minX : Geom → ℚ
  | [] => 0
  | c :: cs => List.foldl (fun m p => min m p.1) c.1 cs

/-- Minimum y over the coordinates of a geometry. -/
def minY : Geom → ℚ
  | [] => 0
  | c :: cs => List.foldl (fun m p => min m p.2) c.2 cs

/-- Maximum x over the coordinates of a geometry. -/
def maxX : Geom → ℚ
  | [] => 0
  | c :: cs => List.foldl (fun m p => max m p.1) c.1 cs

/-- Maximum y over the coordinates of a geometry. -/
def maxY : Geom → ℚ
  | [] => 0
  | c :: cs => List.foldl (fun m p => max m p.2) c.2 cs

/-- A value appearing in a bounding-box row: a string column or a
numeric column. -/
inductive Val where
  | str : String → Val
  | num : ℚ → Val
deriving DecidableEq, Repr

/-- A bounding-box row, as the Python dict literal built at
src/main.py lines 481-489 (insertion-ordered keys). -/
abbrev Row := List (String × Val)

/-- The row dict built for one feature (src/main.py lines 473-489). -/
def bboxRow (feature : Feature) : Row :=
  [("id", Val.str (dictGetD feature.properties "site_code" "unknown")),
   ("feature_type", Val.str (dictGetD feature.properties "feature_type" "unknown")),
   ("feature_name", Val.str (dictGetD feature.properties "name" "unknown")),
   ("min_x", Val.num (minX feature.geometry)),
   ("min_y", Val.num (minY feature.geometry)),
   ("max_x", Val.num (maxX feature.geometry)),
   ("max_y", Val.num (maxY feature.geometry))]

/-- The accumulation loop of src/main.py lines 471-489: one row is
appended per feature, in input order. -/
def bbLoop : List Feature → List Row → List Row
  | [], acc => acc
  | feature :: rest, acc => bbLoop rest (acc ++ [bboxRow feature])

/-- bounding_boxes (src/main.py lines 470-489): the list of row dicts
that becomes the exported CSV table (one row per feature, computed in
the input coordinate reference, no reprojection). -/
def bounding_boxes (c : FC) : List Row :=
  bbLoop c.features []

/-
Concrete instances used by witnesses and counterexamples.
-/

/-- A concrete buffer function (identity); claims under study are
uniform in the buffer implementation. -/
def bufW : Geom → ℚ → Geom := fun g _ => g

/-- A concrete polygon-layer database with one Kenyan record. -/
def polyDbW : List PolyRecord :=
  [⟨"KEN001", "Alpha", [(0, 0), (1, 0), (1, 1), (0, 0)]⟩]

/-- A concrete point-layer database: one point sharing its code with
the official polygon, one new point. -/
def ptDbW : List PointRecord :=
  [⟨"KEN", "KEN001", "Alpha", [(5, 5)]⟩, ⟨"KEN", "KEN002", "Beta", [(6, 6)]⟩]

/-- The official polygon collection fetched from polyDbW. -/
def officialW : FC :=
  ⟨[⟨[(0, 0), (1, 0), (1, 1), (0, 0)],
     [("site_code", "KEN001"), ("name", "Alpha"), ("feature_type", "Polygon")]⟩]⟩

/-- The point collection fetched from ptDbW after exclusion. -/
def pointsW : FC :=
  ⟨[⟨[(6, 6)], [("pcode", "KEN002"), ("gis_name", "Beta"), ("feature_type", "Point")]⟩]⟩

/-- The merged collection produced for the concrete scenario. -/
def mergedW : FC :=
  ⟨[⟨[(0, 0), (1, 0), (1, 1), (0, 0)],
     [("site_code", "KEN001"), ("name", "Alpha"), ("feature_type", "Polygon")]⟩,
    ⟨[(6, 6)], [("pcode", "KEN002"), ("gis_name", "Beta"), ("feature_type", "Point")]⟩]⟩

/-- A property dict carrying the source-service field names. -/
def psW : Props := [("pcode", "A"), ("gis_name", "B")]

/-- A single-feature collection whose properties carry a pcode key. -/
def collX : FC := ⟨[⟨[(0, 0)], [("pcode", "KEN001")]⟩]⟩

/-- A concrete feature with a two-coordinate geometry. -/
def featW8 : Feature :=
  ⟨[(1, 2), (3, 4)],
   [("site_code", "KEN001"), ("feature_type", "Polygon"), ("name", "Alpha")]⟩

/-- A one-feature collection for the bounding-box table. -/
def collW8 : FC := ⟨[featW8]⟩

/-
Shared helper lemmas.
-/

/-- The gen_polygons loop appends, in order, one buffered feature per
input feature to its accumulator. -/
theorem genLoop_eq (buf : Geom → ℚ → Geom) (b : ℚ) :
    ∀ (l acc : List Feature),
      genLoop buf b l acc =
        acc ++ l.map (fun feature => ⟨buf feature.geometry b, feature.properties⟩) := by
  intro l
  induction l with
  | nil => intro acc; simp [genLoop]
  | cons f rest ih => intro acc; simp [genLoop, ih]

/-- The bounding-box loop appends, in order, one row per input feature
to its accumulator. -/
theorem bbLoop_eq :
    ∀ (l : List Feature) (acc : List Row),
      bbLoop l acc = acc ++ l.map bboxRow := by
  intro l
  induction l with
  | nil => intro acc; simp [bbLoop]
  | cons f rest ih => intro acc; simp [bbLoop, ih]

/-- Indexing a mapped list below its length. -/
theorem getD_map_lt {α β : Type} (f : α → β) :
    ∀ (l : List α) (i : Nat) (d : α) (e : β), i < l.length →
      (l.map f).getD i e = f (l.getD i d) := by
  intro l
  induction l with
  | nil => intro i d e hi; simp at hi
  | cons a rest ih =>
      intro i d e hi
      cases i with
      | zero => simp [List.getD]
      | succ j =>
          simp only [List.map_cons, List.getD, List.getElem?_cons_succ]
          have hj : j < rest.length := by
            simpa [Nat.succ_lt_succ_iff] using hi
          simpa [List.getD] using ih j d e hj

/-- Lookup after erasing the same key. -/
theorem dictGet?_erase_self (k : String) :
    ∀ ps : Props, dictGet? k (dictErase k ps) = none := by
  intro ps
  induction ps with
  | nil => rfl
  | cons p rest ih =>
      by_cases h : p.1 = k
      · simp [dictErase, h, ih]
      · simp [dictErase, dictGet?, h, ih]

/-- Lookup after erasing a different key. -/
theorem dictGet?_erase_ne {k k0 : String} (h : k ≠ k0) :
    ∀ ps : Props, dictGet? k (dictErase k0 ps) = dictGet? k ps := by
  intro ps
  induction ps with
  | nil => rfl
  | cons p rest ih =>
      by_cases h1 : p.1 = k0
      · have h2 : p.1 ≠ k := by rw [h1]; exact Ne.symm h
        simp [dictErase, dictGet?, h1, h2, Ne.symm h, ih]
      · by_cases h2 : p.1 = k
        · simp [dictErase, dictGet?, h1, h2, h]
        · simp [dictErase, dictGet?, h1, h2, ih]

/-- Lookup of the key just set. -/
theorem dictGet?_set_self (k v : String) :
    ∀ ps : Props, dictGet? k (dictSet k v ps) = some v := by
  intro ps
  induction ps with
  | nil => simp [dictSet, dictGet?]
  | cons p rest ih =>
      by_cases h : p.1 = k
      · simp [dictSet, dictGet?, h]
      · simp [dictSet, dictGet?, h, ih]

/-- Lookup of an unrelated key after a set. -/
theorem dictGet?_set_ne {k k0 : String} (h : k ≠ k0) (v : String) :
    ∀ ps : Props, dictGet? k (dictSet k0 v ps) = dictGet? k ps := by
  intro ps
  induction ps with
  | nil => simp [dictSet, dictGet?, Ne.symm h]
  | cons p rest ih =>
      by_cases h1 : p.1 = k0
      · have h2 : p.1 ≠ k := by rw [h1]; exact Ne.symm h
        simp [dictSet, dictGet?, h1, h2, Ne.symm h]
      · simp [dictSet, dictGet?, h1, ih]

/-- A rename step whose source key is absent does nothing. -/
theorem renameStep_id {src : String} (dst : String) {ps : Props}
    (h : dictGet? src ps = none) : renameStep src dst ps = ps := by
  simp [renameStep, h]

/-- After a rename step, a key other than the destination is absent
whenever it was absent before or was the source key itself. -/
theorem dictGet?_renameStep_none {k src dst : String} (h2 : k ≠ dst)
    (ps : Props) (h : dictGet? k ps = none ∨ k = src) :
    dictGet? k (renameStep src dst ps) = none := by
  cases e : dictGet? src ps with
  | none =>
      rw [renameStep_id dst e]
      rcases h with h | h
      · exact h
      · rw [h]; exact e
  | some v =>
      rw [renameStep, e]
      rw [dictGet?_set_ne h2]
      by_cases h3 : k = src
      · rw [h3]; exact dictGet?_erase_self src _
      · rw [dictGet?_erase_ne h3]
        rcases h with h | h
        · exact h
        · exact absurd h h3

/-- A rename step does not change the binding of a key that is neither
its source nor its destination. -/
theorem dictGet?_renameStep_other {k src dst : String} (h1 : k ≠ src)
    (h2 : k ≠ dst) (ps : Props) :
    dictGet? k (renameStep src dst ps) = dictGet? k ps := by
  cases e : dictGet? src ps with
  | none => rw [renameStep_id dst e]
  | some v =>
      rw [renameStep, e, dictGet?_set_ne h2, dictGet?_erase_ne h1]

/-- After a rename step fires, the destination key holds the popped
source value. -/
theorem dictGet?_renameStep_dst {src dst v : String} {ps : Props}
    (e : dictGet? src ps = some v) :
    dictGet? dst (renameStep src dst ps) = some v := by
  rw [renameStep, e, dictGet?_set_self]

/-- A running minimum never exceeds its initial value. -/
theorem foldl_min_le_init (f : Coord → ℚ) :
    ∀ (l : List Coord) (a : ℚ),
      List.foldl (fun m p => min m (f p)) a l ≤ a := by
  intro l
  induction l with
  | nil => intro a; exact le_refl a
  | cons c cs ih =>
      intro a
      exact le_trans (ih (min a (f c))) (min_le_left _ _)

/-- A running minimum is a lower bound of the visited values. -/
theorem foldl_min_le_mem (f : Coord → ℚ) :
    ∀ (l : List Coord) (a : ℚ) (x : Coord), x ∈ l →
      List.foldl (fun m p => min m (f p)) a l ≤ f x := by
  intro l
  induction l with
  | nil => intro a x hx; cases hx
  | cons c cs ih =>
      intro a x hx
      cases hx with
      | head => exact le_trans (foldl_min_le_init f cs (min a (f c))) (min_le_right _ _)
      | tail _ hx => exact ih (min a (f c)) x hx

/-- A running minimum is its initial value or one of the visited values. -/
theorem foldl_min_attained (f : Coord → ℚ) :
    ∀ (l : List Coord) (a : ℚ),
      List.foldl (fun m p => min m (f p)) a l = a ∨
      ∃ x, x ∈ l ∧ List.foldl (fun m p => min m (f p)) a l = f x := by
  intro l
  induction l with
  | nil => intro a; exact Or.inl rfl
  | cons c cs ih =>
      intro a
      rcases ih (min a (f c)) with heq | ⟨x, hx, heq⟩
      · rcases min_choice a (f c) with h | h
        · exact Or.inl (heq.trans h)
        · exact Or.inr ⟨c, List.mem_cons_self c cs, heq.trans h⟩
      · exact Or.inr ⟨x, List.mem_cons_of_mem c hx, heq⟩

/-- A running maximum is at least its initial value. -/
theorem foldl_max_init_le (f : Coord → ℚ) :
    ∀ (l : List Coord) (a : ℚ),
      a ≤ List.foldl (fun m p => max m (f p)) a l := by
  intro l
  induction l with
  | nil => intro a; exact le_refl a
  | cons c cs ih =>
      intro a
      exact le_trans (le_max_left _ _) (ih (max a (f c)))

/-- A running maximum is an upper bound of the visited values. -/
theorem foldl_max_mem_le (f : Coord → ℚ) :
    ∀ (l : List Coord) (a : ℚ) (x : Coord), x ∈ l →
      f x ≤ List.foldl (fun m p => max m (f p)) a l := by
  intro l
  induction l with
  | nil => intro a x hx; cases hx
  | cons c cs ih =>
      intro a x hx
      cases hx with
      | head => exact le_trans (le_max_right _ _) (foldl_max_init_le f cs (max a (f c)))
      | tail _ hx => exact ih (max a (f c)) x hx

/-- A running maximum is its initial value or one of the visited values. -/
theorem foldl_max_attained (f : Coord → ℚ) :
    ∀ (l : List Coord) (a : ℚ),
      List.foldl (fun m p => max m (f p)) a l = a ∨
      ∃ x, x ∈ l ∧ List.foldl (fun m p => max m (f p)) a l = f x := by
  intro l
  induction l with
  | nil => intro a; exact Or.inl rfl
  | cons c cs ih =>
      intro a
      rcases ih (max a (f c)) with heq | ⟨x, hx, heq⟩
      · rcases max_choice a (f c) with h | h
        · exact Or.inl (heq.trans h)
        · exact Or.inr ⟨c, List.mem_cons_self c cs, heq.trans h⟩
      · exact Or.inr ⟨x, List.mem_cons_of_mem c hx, heq⟩

/-- The gen_polygons output features carry the buffered geometries in
input order. -/
theorem gen_polygons_features (buf : Geom → ℚ → Geom) (data : Option FC) (b : ℚ) :
    (gen_polygons buf data b).features =
      (getFeaturesD data).map
        (fun feature => ⟨buf feature.geometry b, feature.properties⟩) := by
  simp [gen_polygons, genLoop_eq]

/-- n_points always equals the length of the fetched point feature list
(zero for the falsy empty dict). -/
theorem pointCount_eq_length (pd : Option FC) :
    pointCount pd = (getFeaturesD pd).length := by
  cases pd <;> rfl

/-- The pcode property survives the feature_type tagging of
query_points. -/
theorem pcode_of_tagged (r : PointRecord) :
    dictGet? "pcode"
      (dictSet "feature_type" "Point" [("pcode", r.pcode), ("gis_name", r.gis_name)]) =
      some r.pcode := rfl

/-- Reduction of process_country when the polygon fetch succeeded. -/
theorem process_country_eq_some (buf : Geom → ℚ → Geom)
    (polyOk ptOk : Bool) (polyDb : List PolyRecord) (ptDb : List PointRecord)
    (cc : String) (bp bpoly : ℚ) (official : FC)
    (h1 : query_polygons buf polyOk polyDb cc bpoly = some official) :
    process_country buf polyOk ptOk polyDb ptDb cc bp bpoly =
      some (⟨official.features ++
          (getFeaturesD (query_points ptOk ptDb cc (extract_site_codes official))).map
            (fun feature => ⟨buf feature.geometry bp, feature.properties⟩)⟩,
        official.features.length,
        pointCount (query_points ptOk ptDb cc (extract_site_codes official))) := by
  simp only [process_country, h1, gen_polygons_features]
  by_cases he :
      (getFeaturesD (query_points ptOk ptDb cc (extract_site_codes official))).map
        (fun feature => (⟨buf feature.geometry bp, feature.properties⟩ : Feature)) = []
  · simp [he]
  · simp [he, List.isEmpty_iff]

/-
Claim theorems.
-/

/-- C1 counterexample: with a reachable polygon layer holding no record
for the country, the official-polygon fetch yields a truthy collection
with zero polygon features, yet process_country does not return the
None sentinel: it performs the point query and returns its results. -/
theorem process_country_zero_polygons_counterexample :
    query_polygons bufW true [] "KEN" 1 = some ⟨[]⟩ ∧
    process_country bufW true true [] ptDbW "KEN" 1 1 ≠ none ∧
    process_country bufW true true [] ptDbW "KEN" 1 1 =
      some (⟨[⟨[(5, 5)], [("pcode", "KEN001"), ("gis_name", "Alpha"), ("feature_type", "Point")]⟩,
              ⟨[(6, 6)], [("pcode", "KEN002"), ("gis_name", "Beta"), ("feature_type", "Point")]⟩]⟩,
        0, 2) := by
  have h : process_country bufW true true [] ptDbW "KEN" 1 1 =
      some (⟨[⟨[(5, 5)], [("pcode", "KEN001"), ("gis_name", "Alpha"), ("feature_type", "Point")]⟩,
              ⟨[(6, 6)], [("pcode", "KEN002"), ("gis_name", "Beta"), ("feature_type", "Point")]⟩]⟩,
        0, 2) := rfl
  refine ⟨rfl, ?_, h⟩
  rw [h]
  exact Option.some_ne_none _

/-- C1 (amended): process_country returns the no-data sentinel None
exactly when the official-polygon fetch returns the falsy empty mapping
of a caught transport failure, and on that path the outcome is
independent of the point source (no point query takes effect); a
successful fetch with zero polygon features instead proceeds to the
point query. -/
theorem process_country_nodata (buf : Geom → ℚ → Geom)
    (polyOk ptOk ptOk' : Bool) (polyDb : List PolyRecord)
    (ptDb ptDb' : List PointRecord) (cc : String) (bp bpoly : ℚ)
    (h : query_polygons buf polyOk polyDb cc bpoly = none) :
    process_country buf polyOk ptOk polyDb ptDb cc bp bpoly = none ∧
    process_country buf polyOk ptOk polyDb ptDb cc bp bpoly =
      process_country buf polyOk ptOk' polyDb ptDb' cc bp bpoly := by
  unfold process_country
  rw [h]
  exact ⟨rfl, rfl⟩

/-- Witness for process_country_nodata: a concrete failing polygon
fetch. -/
theorem process_country_nodata_w :
    process_country bufW false true [] ptDbW "KEN" 1 1 = none ∧
    process_country bufW false true [] ptDbW "KEN" 1 1 =
      process_country bufW false false [] [] "KEN" 1 1 :=
  process_country_nodata bufW false true false [] ptDbW [] "KEN" 1 1 rfl

/-- C2: the point query excludes exactly the identifier set of the
fetched official polygons, by the server-side NOT IN predicate over the
extracted site codes: no returned feature carries an excluded pcode,
and every country point record with a non-excluded pcode is returned. -/
theorem query_points_excludes (official : FC) (transport : Bool)
    (db : List PointRecord) (cc : String) (fc : FC)
    (h : query_points transport db cc (extract_site_codes official) = some fc) :
    (∀ f, f ∈ fc.features → ∀ v, dictGet? "pcode" f.properties = some v →
      v ∉ extract_site_codes official) ∧
    (∀ r, r ∈ db → r.iso3 = cc → r.pcode ∉ extract_site_codes official →
      ∃ f, f ∈ fc.features ∧ dictGet? "pcode" f.properties = some r.pcode) := by
  cases transport with
  | false => simp [query_points] at h
  | true =>
      simp only [query_points, if_true, Option.some.injEq] at h
      subst h
      constructor
      · intro f hf v hv
        simp only [FC.mk.injEq] at hf ⊢
        rw [serverPoints, List.map_map] at hf
        obtain ⟨r, hr, rfl⟩ := List.mem_map.mp hf
        obtain ⟨hrdb, hpred⟩ := List.mem_filter.mp hr
        rw [decide_eq_true_eq] at hpred
        rw [Function.comp, pcode_of_tagged] at hv
        obtain rfl : r.pcode = v := Option.some.inj hv
        exact hpred.2
      · intro r hrdb hiso hnot
        refine ⟨⟨r.geometry,
          dictSet "feature_type" "Point" [("pcode", r.pcode), ("gis_name", r.gis_name)]⟩,
          ?_, pcode_of_tagged r⟩
        rw [serverPoints, List.map_map]
        refine List.mem_map.mpr ⟨r, ?_, rfl⟩
        exact List.mem_filter.mpr ⟨hrdb, decide_eq_true ⟨hiso, hnot⟩⟩

/-- Witness for query_points_excludes: the non-excluded point of the
concrete scenario is not among the official site codes. -/
theorem query_points_excludes_w :
    "KEN002" ∉ extract_site_codes officialW :=
  (query_points_excludes officialW true ptDbW "KEN" pointsW rfl).1
    ⟨[(6, 6)], [("pcode", "KEN002"), ("gis_name", "Beta"), ("feature_type", "Point")]⟩
    (List.mem_singleton_self _) "KEN002" rfl

/-- C3: on every successful run the merged output collection is exactly
the fetched official polygon features followed by the point-buffer
features generated from the fetched points, each sub-collection in its
original order. -/
theorem process_country_merge_order (buf : Geom → ℚ → Geom)
    (polyOk ptOk : Bool) (polyDb : List PolyRecord) (ptDb : List PointRecord)
    (cc : String) (bp bpoly : ℚ) (official fc : FC) (np ns : Nat)
    (h1 : query_polygons buf polyOk polyDb cc bpoly = some official)
    (h2 : process_country buf polyOk ptOk polyDb ptDb cc bp bpoly = some (fc, np, ns)) :
    fc.features = official.features ++
      (getFeaturesD (query_points ptOk ptDb cc (extract_site_codes official))).map
        (fun feature => ⟨buf feature.geometry bp, feature.properties⟩) := by
  rw [process_country_eq_some buf polyOk ptOk polyDb ptDb cc bp bpoly official h1] at h2
  simp only [Option.some.injEq, Prod.mk.injEq] at h2
  rw [← h2.1]

/-- Witness for process_country_merge_order on the concrete scenario. -/
theorem process_country_merge_order_w :
    mergedW.features = officialW.features ++
      (getFeaturesD (query_points true ptDbW "KEN" (extract_site_codes officialW))).map
        (fun feature => ⟨bufW feature.geometry 1, feature.properties⟩) :=
  process_country_merge_order bufW true true polyDbW ptDbW "KEN" 1 1 officialW mergedW 1 1
    rfl rfl

/-- C4 (code-bug evaluation): a transport failure during the polygon
fetch makes process_country return Python None, and the tuple
assignment at the call site (src/main.py line 309) then raises a
TypeError rather than reporting a success, no-data or failure
outcome. -/
theorem load_country_raises_on_transport_failure :
    process_country bufW false true polyDbW ptDbW "KEN" 1 1 = none ∧
    load_country bufW false true polyDbW ptDbW "KEN" 1 1 =
      Except.error "TypeError: cannot unpack non-iterable NoneType object" :=
  ⟨rfl, rfl⟩

/-- C5: on every successful run, the reported polygon count is the
number of fetched polygon features, the reported point count is the
number of fetched point features, and the merged collection's length is
their sum. -/
theorem process_country_counts (buf : Geom → ℚ → Geom)
    (polyOk ptOk : Bool) (polyDb : List PolyRecord) (ptDb : List PointRecord)
    (cc : String) (bp bpoly : ℚ) (official fc : FC) (np ns : Nat)
    (h1 : query_polygons buf polyOk polyDb cc bpoly = some official)
    (h2 : process_country buf polyOk ptOk polyDb ptDb cc bp bpoly = some (fc, np, ns)) :
    np = official.features.length ∧
    ns = pointCount (query_points ptOk ptDb cc (extract_site_codes official)) ∧
    ns = (getFeaturesD (query_points ptOk ptDb cc (extract_site_codes official))).length ∧
    fc.features.length = np + ns := by
  rw [process_country_eq_some buf polyOk ptOk polyDb ptDb cc bp bpoly official h1] at h2
  simp only [Option.some.injEq, Prod.mk.injEq] at h2
  obtain ⟨hfc, hnp, hns⟩ := h2
  refine ⟨hnp.symm, hns.symm, ?_, ?_⟩
  · rw [← hns, pointCount_eq_length]
  · rw [← hfc, ← hnp, ← hns]
    simp [pointCount_eq_length]

/-- Witness for process_country_counts on the concrete scenario. -/
theorem process_country_counts_w :
    1 = officialW.features.length ∧
    1 = pointCount (query_points true ptDbW "KEN" (extract_site_codes officialW)) ∧
    1 = (getFeaturesD (query_points true ptDbW "KEN" (extract_site_codes officialW))).length ∧
    mergedW.features.length = 1 + 1 :=
  process_country_counts bufW true true polyDbW ptDbW "KEN" 1 1 officialW mergedW 1 1
    rfl rfl

/-- C9: gen_polygons produces exactly one buffered output feature per
input feature; the count assertion at src/main.py line 138 always
holds, also on an input without a features key (the falsy empty
dict, modelled as `none`). -/
theorem gen_polygons_count (buf : Geom → ℚ → Geom) (data : Option FC) (b : ℚ) :
    (gen_polygons buf data b).features.length = (getFeaturesD data).length := by
  rw [gen_polygons_features, List.length_map]

/-- C10: gen_polygons changes only the geometry of each feature: the
output property mappings are the input property mappings, in order and
unchanged. -/
theorem gen_polygons_preserves_properties (buf : Geom → ℚ → Geom)
    (data : Option FC) (b : ℚ) :
    (gen_polygons buf data b).features.map Feature.properties =
      (getFeaturesD data).map Feature.properties := by
  rw [gen_polygons_features, List.map_map]
  rfl

/-- After the export rename pass, no pcode key remains. -/
theorem normalizeProps_no_pcode (ps : Props) :
    dictGet? "pcode" (normalizeProps ps) = none := by
  apply dictGet?_renameStep_none (by decide)
  left
  apply dictGet?_renameStep_none (by decide)
  right
  rfl

/-- After the export rename pass, no gis_name key remains. -/
theorem normalizeProps_no_gis (ps : Props) :
    dictGet? "gis_name" (normalizeProps ps) = none := by
  apply dictGet?_renameStep_none (by decide)
  right
  rfl

/-- The export rename pass is idempotent on one property dict. -/
theorem normalizeProps_idem (ps : Props) :
    normalizeProps (normalizeProps ps) = normalizeProps ps := by
  show renameStep "gis_name" "name"
    (renameStep "pcode" "site_code" (normalizeProps ps)) = normalizeProps ps
  rw [renameStep_id "site_code" (normalizeProps_no_pcode ps),
      renameStep_id "name" (normalizeProps_no_gis ps)]

/-- C6 counterexample: on a feature whose properties hold a pcode key,
the export rename pass produces a site_code key, not an id key. -/
theorem normalize_pcode_not_id :
    ((normalizeColl collX).features.map (fun f => dictGet? "id" f.properties) =
      [none]) ∧
    ((normalizeColl collX).features.map (fun f => dictGet? "site_code" f.properties) =
      [some "KEN001"]) :=
  ⟨rfl, rfl⟩

/-- C6 (amended): the export rename pass renames pcode to site_code and
gis_name to name wherever those keys are present, removes the source
keys, and leaves property dicts without those keys unchanged. -/
theorem normalizeProps_renames (ps : Props) :
    (dictGet? "pcode" ps = none → dictGet? "gis_name" ps = none →
      normalizeProps ps = ps) ∧
    (∀ v, dictGet? "pcode" ps = some v →
      dictGet? "site_code" (normalizeProps ps) = some v) ∧
    (∀ v, dictGet? "gis_name" ps = some v →
      dictGet? "name" (normalizeProps ps) = some v) ∧
    dictGet? "pcode" (normalizeProps ps) = none ∧
    dictGet? "gis_name" (normalizeProps ps) = none := by
  refine ⟨?_, ?_, ?_, normalizeProps_no_pcode ps, normalizeProps_no_gis ps⟩
  · intro h1 h2
    show renameStep "gis_name" "name" (renameStep "pcode" "site_code" ps) = ps
    rw [renameStep_id "site_code" h1, renameStep_id "name" h2]
  · intro v hv
    show dictGet? "site_code"
      (renameStep "gis_name" "name" (renameStep "pcode" "site_code" ps)) = some v
    rw [dictGet?_renameStep_other (by decide) (by decide),
        dictGet?_renameStep_dst hv]
  · intro v hv
    show dictGet? "name"
      (renameStep "gis_name" "name" (renameStep "pcode" "site_code" ps)) = some v
    apply dictGet?_renameStep_dst
    rw [dictGet?_renameStep_other (by decide) (by decide)]
    exact hv

/-- Witness for normalizeProps_renames at concrete property dicts. -/
theorem normalizeProps_renames_w :
    normalizeProps [] = [] ∧
    dictGet? "site_code" (normalizeProps psW) = some "A" ∧
    dictGet? "name" (normalizeProps psW) = some "B" ∧
    dictGet? "pcode" (normalizeProps psW) = none :=
  ⟨(normalizeProps_renames []).1 rfl rfl,
   (normalizeProps_renames psW).2.1 "A" rfl,
   (normalizeProps_renames psW).2.2.1 "B" rfl,
   (normalizeProps_renames psW).2.2.2.1⟩

/-- C7: the export rename pass is idempotent on whole collections:
applying it twice yields the same collection as applying it once. -/
theorem normalizeColl_idempotent (c : FC) :
    normalizeColl (normalizeColl c) = normalizeColl c := by
  simp only [normalizeColl, List.map_map, FC.mk.injEq]
  apply List.map_congr_left
  intro f _
  simp [Function.comp, normalizeProps_idem]

/-- min_x is a lower bound of the x coordinates. -/
theorem minX_le_mem {g : Geom} {p : Coord} (hp : p ∈ g) : minX g ≤ p.1 := by
  cases g with
  | nil => cases hp
  | cons c cs =>
      cases hp with
      | head => exact foldl_min_le_init Prod.fst cs p.1
      | tail _ hp => exact foldl_min_le_mem Prod.fst cs c.1 p hp

/-- min_y is a lower bound of the y coordinates. -/
theorem minY_le_mem {g : Geom} {p : Coord} (hp : p ∈ g) : minY g ≤ p.2 := by
  cases g with
  | nil => cases hp
  | cons c cs =>
      cases hp with
      | head => exact foldl_min_le_init Prod.snd cs p.2
      | tail _ hp => exact foldl_min_le_mem Prod.snd cs c.2 p hp

/-- max_x is an upper bound of the x coordinates. -/
theorem maxX_mem_le {g : Geom} {p : Coord} (hp : p ∈ g) : p.1 ≤ maxX g := by
  cases g with
  | nil => cases hp
  | cons c cs =>
      cases hp with
      | head => exact foldl_max_init_le Prod.fst cs p.1
      | tail _ hp => exact foldl_max_mem_le Prod.fst cs c.1 p hp

/-- max_y is an upper bound of the y coordinates. -/
theorem maxY_mem_le {g : Geom} {p : Coord} (hp : p ∈ g) : p.2 ≤ maxY g := by
  cases g with
  | nil => cases hp
  | cons c cs =>
      cases hp with
      | head => exact foldl_max_init_le Prod.snd cs p.2
      | tail _ hp => exact foldl_max_mem_le Prod.snd cs c.2 p hp

/-- min_x of a nonempty geometry is one of its x coordinates. -/
theorem minX_mem {g : Geom} (hg : g ≠ []) : minX g ∈ g.map Prod.fst := by
  cases g with
  | nil => exact absurd rfl hg
  | cons c cs =>
      simp only [minX]
      rcases foldl_min_attained Prod.fst cs c.1 with h | ⟨x, hx, h⟩
      · rw [h]
        exact List.mem_map_of_mem Prod.fst (List.mem_cons_self c cs)
      · rw [h]
        exact List.mem_map_of_mem Prod.fst (List.mem_cons_of_mem c hx)

/-- min_y of a nonempty geometry is one of its y coordinates. -/
theorem minY_mem {g : Geom} (hg : g ≠ []) : minY g ∈ g.map Prod.snd := by
  cases g with
  | nil => exact absurd rfl hg
  | cons c cs =>
      simp only [minY]
      rcases foldl_min_attained Prod.snd cs c.2 with h | ⟨x, hx, h⟩
      · rw [h]
        exact List.mem_map_of_mem Prod.snd (List.mem_cons_self c cs)
      · rw [h]
        exact List.mem_map_of_mem Prod.snd (List.mem_cons_of_mem c hx)

/-- max_x of a nonempty geometry is one of its x coordinates. -/
theorem maxX_mem {g : Geom} (hg : g ≠ []) : maxX g ∈ g.map Prod.fst := by
  cases g with
  | nil => exact absurd rfl hg
  | cons c cs =>
      simp only [maxX]
      rcases foldl_max_attained Prod.fst cs c.1 with h | ⟨x, hx, h⟩
      · rw [h]
        exact List.mem_map_of_mem Prod.fst (List.mem_cons_self c cs)
      · rw [h]
        exact List.mem_map_of_mem Prod.fst (List.mem_cons_of_mem c hx)

/-- max_y of a nonempty geometry is one of its y coordinates. -/
theorem maxY_mem {g : Geom} (hg : g ≠ []) : maxY g ∈ g.map Prod.snd := by
  cases g with
  | nil => exact absurd rfl hg
  | cons c cs =>
      simp only [maxY]
      rcases foldl_max_attained Prod.snd cs c.2 with h | ⟨x, hx, h⟩
      · rw [h]
        exact List.mem_map_of_mem Prod.snd (List.mem_cons_self c cs)
      · rw [h]
        exact List.mem_map_of_mem Prod.snd (List.mem_cons_of_mem c hx)

/-- C8 counterexample: the produced rows carry the column key
feature_name, not name, so the table does not have the claimed column
set. -/
theorem bounding_boxes_no_name_column :
    ((bounding_boxes collW8).map (fun row => row.map Prod.fst) =
      [["id", "feature_type", "feature_name", "min_x", "min_y", "max_x", "max_y"]]) ∧
    (bounding_boxes collW8).all (fun row => row.all (fun p => p.1 != "name")) = true :=
  ⟨rfl, rfl⟩

/-- C8 (amended): the bounding-box table has exactly one row per input
feature, in input order; each row carries the columns id, feature_type,
feature_name, min_x, min_y, max_x, max_y, with the string columns taken
from the feature's properties and the numeric columns forming the
axis-aligned bounding envelope of its geometry in the input coordinate
reference (no reprojection). -/
theorem bounding_boxes_rows (c : FC) :
    (bounding_boxes c).length = c.features.length ∧
    (∀ i, i < c.features.length →
      (bounding_boxes c).getD i [] = bboxRow (c.features.getD i noFeature)) ∧
    (∀ f, f ∈ c.features → ∀ p, p ∈ f.geometry →
      minX f.geometry ≤ p.1 ∧ p.1 ≤ maxX f.geometry ∧
      minY f.geometry ≤ p.2 ∧ p.2 ≤ maxY f.geometry) ∧
    (∀ f, f ∈ c.features → f.geometry ≠ [] →
      minX f.geometry ∈ f.geometry.map Prod.fst ∧
      maxX f.geometry ∈ f.geometry.map Prod.fst ∧
      minY f.geometry ∈ f.geometry.map Prod.snd ∧
      maxY f.geometry ∈ f.geometry.map Prod.snd) := by
  refine ⟨?_, ?_, ?_, ?_⟩
  · rw [bounding_boxes, bbLoop_eq]
    simp
  · intro i hi
    rw [bounding_boxes, bbLoop_eq]
    simpa using getD_map_lt bboxRow c.features i noFeature [] hi
  · intro f _ p hp
    exact ⟨minX_le_mem hp, maxX_mem_le hp, minY_le_mem hp, maxY_mem_le hp⟩
  · intro f _ hg
    exact ⟨minX_mem hg, maxX_mem hg, minY_mem hg, maxY_mem hg⟩

/-- Witness for bounding_boxes_rows at a concrete one-feature
collection. -/
theorem bounding_boxes_rows_w :
    (bounding_boxes collW8).getD 0 [] = bboxRow (collW8.features.getD 0 noFeature) ∧
    minX featW8.geometry ≤ (1 : ℚ) ∧
    (3 : ℚ) ≤ maxX featW8.geometry ∧
    minX featW8.geometry ∈ featW8.geometry.map Prod.fst :=
  ⟨(bounding_boxes_rows collW8).2.1 0 (by decide),
   ((bounding_boxes_rows collW8).2.2.1 featW8 (List.mem_singleton_self _)
      (1, 2) (List.mem_cons_self _ _)).1,
   ((bounding_boxes_rows collW8).2.2.1 featW8 (List.mem_singleton_self _)
      (3, 4) (List.mem_cons_of_mem _ (List.mem_singleton_self _))).2.1,
   ((bounding_boxes_rows collW8).2.2.2 featW8 (List.mem_singleton_self _)
      (by simp [featW8])).1⟩

end Unhcr
